import Mathlib

set_option maxRecDepth 6000

/-
Verification of the thumbnail-retrieval subsystem of MarkerEditorForPlex
(ThumbnailManager, BifThumbnailManager, FfmpegThumbnailManager, CacheMap and
friends), shallowly embedded in Lean 4.

Modelling conventions:
  * JavaScript objects used as dictionaries (`#cacheMap`, `cachedThumbnails`)
    are modelled as functions into `Option`; property assignment is pointwise
    functional update and `delete` maps the key to `none`.
  * A `Buffer` is a `ByteBuf`: a length together with a byte-indexed function
    (bytes are read mod 256); buffer contents are compared pointwise with
    `ByteBuf.eqv`.
  * JavaScript numbers holding integral values are `Int` (or `Nat` for
    counters that are never negative); `Math.floor(a / b)` on integers with
    `b > 0` is `Int.fdiv`.
  * Rejected promises / thrown exceptions are `Except.error`; functions that
    mutate manager state return the new state alongside the result, and on an
    error return the state unchanged (a thrown exception leaves the JS fields
    as they were).
  * The database, the filesystem and the ffmpeg subprocess are external
    collaborators, modelled as oracles passed in explicitly.
-/

/-! ## Byte buffers -/

/-- A byte buffer (Node `Buffer`): a length and the byte at each index. -/
structure ByteBuf where
  len : Nat
  byte : Nat → Nat

/-- The byte at index `i`: in-bounds bytes reduced mod 256, 0 outside. -/
def ByteBuf.get (b : ByteBuf) (i : Nat) : Nat :=
  if i < b.len then b.byte i % 256 else 0

/-- `Buffer.alloc(fin - start)` followed by `data.copy(_, 0, start, fin)`:
the target is zero-filled, and the copy supplies the source bytes that exist
(positions past the source's end stay 0). -/
def ByteBuf.extract (data : ByteBuf) (start fin : Int) : ByteBuf :=
  ⟨(fin - start).toNat, fun i => data.get (start.toNat + i)⟩

/-- Pointwise buffer equality: same length and the same byte at every
in-bounds index. -/
def ByteBuf.eqv (a b : ByteBuf) : Prop :=
  a.len = b.len ∧ ∀ i, i < a.len → a.get i = b.get i

instance (a b : ByteBuf) : Decidable (a.eqv b) := by
  unfold ByteBuf.eqv
  infer_instance

/-! ## CachedThumbnail (class CachedThumbnail) -/

/-- A cached thumbnail: the raw byte buffer together with its rank,
used by cache pruning. -/
structure CachedThumbnail where
  data : ByteBuf
  rank : Int

/-! ## MediaItemCache (class MediaItemCache and its two subclasses)

The base class carries `hasThumbs` and the thumbnail map; the subclasses
(`BifMediaItemCache`, `FfmpegMediaItemCache`) add backend-specific fields,
modelled here as a type parameter `extra`. -/

/-- Per-media-item cache record. `cachedThumbnails` maps a bucket key (frame
index for the BIF backend, rounded millisecond timestamp for the ffmpeg
backend) to a cached thumbnail; absent keys are `none`. -/
structure MediaItemCache (α : Type) where
  hasThumbs : Bool
  cachedThumbnails : Int → Option CachedThumbnail
  extra : α

/-- Extra fields of BifMediaItemCache: the path to index-sd.bif and the
lazily-discovered interval (0 until the first parse). -/
structure BifData where
  bifPath : String
  interval : Int
deriving Repr, DecidableEq

/-- Extra fields of FfmpegMediaItemCache: the media file path and its
duration in milliseconds. -/
structure FfmpegData where
  filePath : String
  duration : Int
deriving Repr, DecidableEq

/-! ## CacheMap (class CacheMap) -/

/-- `CacheMap.#maxTick`: how many ticks pass before the cache is pruned. -/
def maxTick : Nat := 20

/-- The LRU-like cache: `#maxCache`, the current `#tick`, and `#cacheMap`
from metadata ids to per-item records. -/
structure CacheMap (α : Type) where
  maxCache : Nat
  tick : Nat
  cacheMap : Nat → Option (MediaItemCache α)

namespace CacheMap

variable {α : Type}

/-- `CacheMap.getItem`: the per-item record, or `none` (JS returns `false`)
when the item has never been recorded. -/
def getItem (c : CacheMap α) (metadataId : Nat) : Option (MediaItemCache α) :=
  c.cacheMap metadataId

/-- `CacheMap._addItem`: unconditionally install a per-item record. -/
def _addItem (c : CacheMap α) (metadataId : Nat) (episodeCache : MediaItemCache α) :
    CacheMap α :=
  { c with cacheMap := fun id => if id = metadataId then some episodeCache else c.cacheMap id }

/-- One sub-entry's fate during the pruning sweep:
`(cacheItem.cachedThumbnails[thumb].rank -= this.#maxTick) <= 0` deletes the
sub-entry, otherwise it survives with the decremented rank. -/
def sweepThumb (t : CachedThumbnail) : Option CachedThumbnail :=
  if t.rank - (maxTick : Int) ≤ 0 then none
  else some { t with rank := t.rank - (maxTick : Int) }

/-- The pruning sweep applied to one item: every thumbnail sub-entry is
decremented/deleted; the item-level record itself stays. -/
def sweepEntry (e : MediaItemCache α) : MediaItemCache α :=
  { e with cachedThumbnails := fun ts => (e.cachedThumbnails ts).bind sweepThumb }

/-- `CacheMap.#touch`: increment the tick; when it reaches `#maxTick`, reset
it to zero and sweep every sub-entry of every item, decrementing its rank by
`#maxTick` and deleting it when the decremented rank is `≤ 0`. -/
def touch (c : CacheMap α) : CacheMap α :=
  if c.tick + 1 ≠ maxTick then { c with tick := c.tick + 1 }
  else
    { c with
      tick := 0
      cacheMap := fun id => (c.cacheMap id).map sweepEntry }

/-- The assignment
`this.#cacheMap[metadataId].cachedThumbnails[timestamp] = new CachedThumbnail(buffer, this.#maxCache + 1)`
performed by `add` after its `#touch`. -/
def storeThumb (c1 : CacheMap α) (metadataId : Nat) (timestamp : Int) (buffer : ByteBuf) :
    CacheMap α :=
  { c1 with
    cacheMap := fun id =>
      if id = metadataId then
        (c1.cacheMap id).map fun e =>
          { e with
            cachedThumbnails := fun ts =>
              if ts = timestamp then some ⟨buffer, (c1.maxCache : Int) + 1⟩
              else e.cachedThumbnails ts }
      else c1.cacheMap id }

/-- `CacheMap.add`: if the per-item record is missing, log a warning and
return (no state change); otherwise `#touch`, then store the buffer at the
given bucket key with rank `#maxCache + 1`. -/
def add (c : CacheMap α) (metadataId : Nat) (timestamp : Int) (buffer : ByteBuf) :
    CacheMap α :=
  match c.cacheMap metadataId with
  | none => c
  | some _ => storeThumb c.touch metadataId timestamp buffer

/-- The assignment `thumbEntry.rank = this.#maxCache + 1` performed by a
`tryGet` hit on the entry `t` of item `e`, before the `#touch`. -/
def refreshRank (c : CacheMap α) (metadataId : Nat) (timestamp : Int)
    (e : MediaItemCache α) (t : CachedThumbnail) : CacheMap α :=
  { c with
    cacheMap := fun id =>
      if id = metadataId then
        some { e with
          cachedThumbnails := fun ts =>
            if ts = timestamp then some { t with rank := (c.maxCache : Int) + 1 }
            else e.cachedThumbnails ts }
      else c.cacheMap id }

/-- `CacheMap.tryGet`: on a hit, refresh the entry's rank to `#maxCache + 1`,
`#touch`, and return the buffer; on a miss return `none` with the state
unchanged. -/
def tryGet (c : CacheMap α) (metadataId : Nat) (timestamp : Int) :
    Option ByteBuf × CacheMap α :=
  match c.cacheMap metadataId with
  | none => (none, c)
  | some e =>
    match e.cachedThumbnails timestamp with
    | none => (none, c)
    | some t => (some t.data, (refreshRank c metadataId timestamp e t).touch)

end CacheMap

/-- The rank currently recorded for the sub-entry `(metadataId, timestamp)`,
or `none` when the item or the sub-entry is absent. Observation function used
by the cache theorems; not part of the source API. -/
def rankOf {α : Type} (c : CacheMap α) (metadataId : Nat) (timestamp : Int) : Option Int :=
  match c.cacheMap metadataId with
  | none => none
  | some e => (e.cachedThumbnails timestamp).map CachedThumbnail.rank

/-! ## Sequences of cache operations -/

/-- An externally-driven cache operation: `CacheMap.add` or `CacheMap.tryGet`. -/
inductive CacheOp where
  | addOp (metadataId : Nat) (timestamp : Int) (buffer : ByteBuf)
  | tryGetOp (metadataId : Nat) (timestamp : Int)

/-- Run one cache operation, keeping the resulting state. -/
def applyOp {α : Type} (c : CacheMap α) : CacheOp → CacheMap α
  | .addOp id ts buf => c.add id ts buf
  | .tryGetOp id ts => (c.tryGet id ts).2

/-- Run a list of cache operations left to right. -/
def applyOps {α : Type} (c : CacheMap α) (ops : List CacheOp) : CacheMap α :=
  ops.foldl applyOp c

/-- Whether the operation touches the cache (increments the tick) when run in
state `c`: an `add` whose item record exists, or a `tryGet` that hits. -/
def opTouches {α : Type} (c : CacheMap α) : CacheOp → Bool
  | .addOp id _ _ => (c.cacheMap id).isSome
  | .tryGetOp id ts => ((c.tryGet id ts).1).isSome

/-- Whether the operation addresses the sub-entry `(idX, tsX)`. -/
def opTargets : CacheOp → Nat → Int → Bool
  | .addOp id ts _, idX, tsX => id = idX ∧ ts = tsX
  | .tryGetOp id ts, idX, tsX => id = idX ∧ ts = tsX

/-- Every operation in the list touches the cache in the state it runs in. -/
def allTouchB {α : Type} (c : CacheMap α) : List CacheOp → Bool
  | [] => true
  | op :: rest => opTouches c op && allTouchB (applyOp c op) rest

/-! ## BIF binary index parsing (BifThumbnailManager.#readThumbnail)

File layout (comment in the source): magic `89 42 49 46 0D 0A 1A 0A`; a
32-bit little-endian thumbnail count at offset 0xC; an index table starting
at 0x40 of 8-byte records, each a 32-bit LE timestamp in seconds followed by
a 32-bit LE byte offset into the file. -/

/-- One byte of the buffer at a possibly signed offset; the source only reads
in bounds (Node would raise a `RangeError` outside), out-of-bounds reads are
harmlessly 0 here. -/
def byteAt (data : ByteBuf) (off : Int) : Nat :=
  if off < 0 then 0 else data.get off.toNat

/-- `Buffer.readInt32LE`: signed 32-bit little-endian read. -/
def readInt32LE (data : ByteBuf) (offset : Int) : Int :=
  let u : Nat := byteAt data offset + 256 * byteAt data (offset + 1) +
      65536 * byteAt data (offset + 2) + 16777216 * byteAt data (offset + 3)
  if u < 2147483648 then (u : Int) else (u : Int) - 4294967296

/-- `getTimestamp(index)`: the timestamp field of index-table record `index`
(`indexTableStart = 0x40`, `recordSize = 0x8`). -/
def getTimestampAt (data : ByteBuf) (index : Int) : Int :=
  readInt32LE data (0x40 + index * 8)

/-- `getOffset(index)`: the byte-offset field of index-table record `index`
(`timestampSize = 0x4`). -/
def getOffsetAt (data : ByteBuf) (index : Int) : Int :=
  readInt32LE data (0x40 + index * 8 + 4)

/-- The rejection message used when the first index record's timestamp is not
zero (the spec's `CorruptIndexError`). -/
def unexpectedContentsError : String := "Unexpected thumbnail file contents"

/-- The rejection message of `ServerError` raised when an episode has no
thumbnails (the spec's `NotAvailableError`). -/
def noThumbnailsError : String := "No thumbnails"

/-- Result of a successful BIF read: the extracted bytes, the clamped frame
index used (also the cache bucket key), and the interval in effect after the
read (freshly discovered when the incoming interval was 0). -/
structure BifReadOk where
  thumbBuf : ByteBuf
  index : Int
  newInterval : Int

/-- The pure body of `BifThumbnailManager.#readThumbnail`'s `readFile`
callback, given the episode's current `interval` (`interval0`), the file
bytes, and the timestamp in whole seconds: validate the first record when the
interval is still unknown, discover the interval from the second record,
clamp the computed frame index to `[0, maxIndex]`, and slice the byte range
of the chosen frame (end-of-file for the last frame). -/
def readThumbnailData (interval0 : Int) (data : ByteBuf) (timestamp : Int) :
    Except String BifReadOk :=
  if interval0 = 0 ∧ getTimestampAt data 0 ≠ 0 then
    Except.error unexpectedContentsError
  else
    let interval := if interval0 = 0 then getTimestampAt data 1 else interval0
    let index0 := timestamp.fdiv interval
    let maxIndex := readInt32LE data 0xC - 1
    let index := if index0 > maxIndex then maxIndex else if index0 < 0 then 0 else index0
    let thumbStart := getOffsetAt data index
    let thumbEnd := if index = maxIndex then (data.len : Int) else getOffsetAt data (index + 1)
    Except.ok ⟨data.extract thumbStart thumbEnd, index, interval⟩

/-- The `BifCacheMap` of `BifThumbnailManager.#cache`. -/
abbrev BifCacheMap := CacheMap BifData

/-- `BifCacheMap.addItem`: record whether the episode has thumbnails and, if
so, where its index-sd.bif lives (interval starts at 0). -/
def BifCacheMap.addItem (c : BifCacheMap) (metadataId : Nat) (hasThumbs : Bool)
    (bifPath : String) : BifCacheMap :=
  c._addItem metadataId ⟨hasThumbs, fun _ => none, ⟨bifPath, 0⟩⟩

/-- Write the (possibly just discovered) interval back onto the episode's
cache entry, as `thumbCache.interval = getTimestamp(1)` does. -/
def BifCacheMap.setInterval (c : BifCacheMap) (metadataId : Nat) (interval : Int) :
    BifCacheMap :=
  { c with
    cacheMap := fun id =>
      if id = metadataId then
        (c.cacheMap id).map fun e => { e with extra := ⟨e.extra.bifPath, interval⟩ }
      else c.cacheMap id }

/-- `BifThumbnailManager.#readThumbnail` with the file read succeeding with
bytes `fileData`: parse, persist the interval on the entry, cache the sliced
buffer under the frame index, and resolve with the buffer. A parse failure
rejects, leaving the state unchanged. -/
def bifReadThumbnail (c : BifCacheMap) (metadataId : Nat) (timestamp : Int)
    (fileData : ByteBuf) : Except String (ByteBuf × BifCacheMap) :=
  match c.getItem metadataId with
  | none => Except.error noThumbnailsError
  | some thumbCache =>
    match readThumbnailData thumbCache.extra.interval fileData timestamp with
    | Except.error e => Except.error e
    | Except.ok r =>
      let c1 := c.setInterval metadataId r.newInterval
      let c2 := c1.add metadataId r.index r.thumbBuf
      Except.ok (r.thumbBuf, c2)

/-- `BifThumbnailManager.#getThumbnailCore`: reject when the episode has no
thumbnails; when the interval is already known, try the in-memory cache at
the computed frame index first; otherwise (or on a miss) read the BIF file. -/
def bifGetThumbnailCore (c : BifCacheMap) (metadataId : Nat) (timestamp : Int)
    (fileData : ByteBuf) : Except String (ByteBuf × BifCacheMap) :=
  match c.getItem metadataId with
  | none => Except.error noThumbnailsError
  | some thumbCache =>
    if thumbCache.hasThumbs = false then Except.error noThumbnailsError
    else if thumbCache.extra.interval ≠ 0 then
      let index := timestamp.fdiv thumbCache.extra.interval
      match c.tryGet metadataId index with
      | (some cachedData, c1) => Except.ok (cachedData, c1)
      | (none, c1) => bifReadThumbnail c1 metadataId timestamp fileData
    else bifReadThumbnail c metadataId timestamp fileData

/-- `BifThumbnailManager.getThumbnail` for an episode whose item record is
already cached (the auto `hasThumbnails` probe is modelled separately):
convert the millisecond timestamp to whole seconds and delegate. -/
def bifGetThumbnail (c : BifCacheMap) (metadataId : Nat) (timestampMs : Int)
    (fileData : ByteBuf) : Except String (ByteBuf × BifCacheMap) :=
  bifGetThumbnailCore c metadataId (timestampMs.fdiv 1000) fileData

/-! ## Concrete BIF files for the end-to-end scenarios -/

/-- Little-endian 32-bit encoding of `n`. -/
def le32 (n : Nat) : List Nat :=
  [n % 256, n / 256 % 256, n / 65536 % 256, n / 16777216 % 256]

/-- The byte at index `i` of a synthetic BIF file: magic, version 0, the
record count at 0xC, zero padding up to the index table at 0x40, the 8-byte
records, then deterministic filler. -/
def mkBifByte (records : List (Nat × Nat)) (i : Nat) : Nat :=
  if i < 8 then [0x89, 0x42, 0x49, 0x46, 0x0D, 0x0A, 0x1A, 0x0A].getD i 0
  else if i < 0xC then 0
  else if i < 0x10 then (le32 records.length).getD (i - 0xC) 0
  else if i < 0x40 then 0
  else if i < 0x40 + 8 * records.length then
    let r := i - 0x40
    let rec0 := records.getD (r / 8) (0, 0)
    if r % 8 < 4 then (le32 rec0.1).getD (r % 8) 0 else (le32 rec0.2).getD (r % 8 - 4) 0
  else i % 251

/-- A synthetic BIF file of length `fileLen` with the given
(timestamp, offset) records. -/
def mkBifFile (records : List (Nat × Nat)) (fileLen : Nat) : ByteBuf :=
  ⟨fileLen, mkBifByte records⟩

/-- Scenario A's index file: records `[(0,0x40),(2,0x1000),(4,0x2000)]`,
file length 0x3000. -/
def scenarioAFile : ByteBuf :=
  mkBifFile [(0, 0x40), (2, 0x1000), (4, 0x2000)] 0x3000

/-- Scenario A's initial cache: the item record for episode 1 exists with
thumbnails available and the interval not yet discovered. -/
def scenarioAState : BifCacheMap :=
  ⟨200, 0, fun id => if id = 1 then some ⟨true, fun _ => none, ⟨"index-sd.bif", 0⟩⟩ else none⟩

/-! ## FfmpegThumbnailManager -/

/-- The `FfmpegCacheMap` of `FfmpegThumbnailManager.#cache`. -/
abbrev FfmpegCacheMap := CacheMap FfmpegData

/-- `FfmpegCacheMap.addItem`: record whether the episode has a playable file
and, if so, its path and duration. -/
def FfmpegCacheMap.addItem (c : FfmpegCacheMap) (metadataId : Nat) (hasThumbs : Bool)
    (filePath : String) (duration : Int) : FfmpegCacheMap :=
  c._addItem metadataId ⟨hasThumbs, fun _ => none, ⟨filePath, duration⟩⟩

/-- The external world of the ffmpeg backend: the on-disk thumbnail cache
(`cache/<metadataId>/<timestamp>.jpg`, `none` when absent) and the ffmpeg
subprocess, as a function from the input file and millisecond seek offset
(`-ss <timestamp>ms`) to the produced frame bytes, or to an error when it
exits non-zero or exceeds the 10-second timeout. The subprocess writes its
output file only on success. -/
structure FfmpegWorld where
  diskCache : Nat → Int → Option ByteBuf
  subprocess : String → Int → Except String ByteBuf

/-- `FfmpegThumbnailManager.#fileCacheOrGenerate`: serve the on-disk cache if
the file exists (also inserting it into the in-memory cache); otherwise run
ffmpeg with a fast seek to `timestamp` ms on the episode's file. A subprocess
failure propagates uncaught, with the in-memory cache and the disk cache
unchanged; on success the frame is stored in both caches and returned. -/
def fileCacheOrGenerate (w : FfmpegWorld) (c : FfmpegCacheMap) (metadataId : Nat)
    (timestamp : Int) : Except String ByteBuf × FfmpegCacheMap × FfmpegWorld :=
  match w.diskCache metadataId timestamp with
  | some data => (Except.ok data, c.add metadataId timestamp data, w)
  | none =>
    match c.getItem metadataId with
    | none => (Except.error noThumbnailsError, c, w)
    | some episodeCache =>
      match w.subprocess episodeCache.extra.filePath timestamp with
      | Except.error e => (Except.error e, c, w)
      | Except.ok bytes =>
        let w1 : FfmpegWorld :=
          { w with
            diskCache := fun i t =>
              if i = metadataId ∧ t = timestamp then some bytes else w.diskCache i t }
        (Except.ok bytes, c.add metadataId timestamp bytes, w1)

/-- The effective timestamp of `FfmpegThumbnailManager.#getThumbnailCore`:
`Math.round(Math.min(maxDuration - 1000, Math.floor(timestamp / 100) * 100))`
(`Math.round` is the identity here, both arguments being integral). -/
def ffmpegEffectiveTimestamp (maxDuration : Int) (timestamp : Int) : Int :=
  min (maxDuration - 1000) (timestamp.fdiv 100 * 100)

/-- `FfmpegThumbnailManager.#getThumbnailCore`: reject when the episode has no
usable file; round/clamp the timestamp, serve the in-memory cache on a hit,
else fall back to the disk cache or ffmpeg. -/
def ffmpegGetThumbnailCore (w : FfmpegWorld) (c : FfmpegCacheMap) (metadataId : Nat)
    (timestamp0 : Int) : Except String ByteBuf × FfmpegCacheMap × FfmpegWorld :=
  match c.getItem metadataId with
  | none => (Except.error noThumbnailsError, c, w)
  | some e =>
    if e.hasThumbs = false then (Except.error noThumbnailsError, c, w)
    else
      let timestamp := ffmpegEffectiveTimestamp e.extra.duration timestamp0
      match c.tryGet metadataId timestamp with
      | (some cachedThumb, c1) => (Except.ok cachedThumb, c1, w)
      | (none, c1) => fileCacheOrGenerate w c1 metadataId timestamp

/-! ## hasThumbnails (both backends)

The database and filesystem are oracles; a "probe" below is one run of the
uncached existence computation (the single database query plus its per-row
filesystem checks). -/

/-- The external world of `BifThumbnailManager.hasThumbnails`: the rows of
the media-part hash query for each metadata id, and `statSync` returning the
mtime of an existing path (`none` models `throwIfNoEntry: false`). -/
structure BifWorld where
  dbRows : Nat → List String
  stat : String → Option Int

/-- The index-sd.bif path derived from a media-part hash
(`joinPath(metadataPath, 'Media', 'localhost', hash[0], hash.substring(1) + '.bundle', 'Contents', 'Indexes', 'index-sd.bif')`). -/
def bifPathOf (metadataPath hash : String) : String :=
  metadataPath ++ "/Media/localhost/" ++ hash.take 1 ++ "/" ++ hash.drop 1 ++
    ".bundle/Contents/Indexes/index-sd.bif"

/-- The `newest` accumulator of `BifThumbnailManager.hasThumbnails`. -/
structure NewestAcc where
  path : String
  mtime : Int
  found : Nat
deriving Repr, DecidableEq

/-- `BifThumbnailManager.hasThumbnails`: answer from the cache when the item
record exists; otherwise probe (query the rows, stat each candidate BIF path,
keep the newest), record the result — including a negative one — and answer.
The third component counts the probes this call performed. -/
def bifHasThumbnails (w : BifWorld) (metadataPath : String) (c : BifCacheMap)
    (metadataId : Nat) : Bool × BifCacheMap × Nat :=
  match c.getItem metadataId with
  | some cached => (cached.hasThumbs, c, 0)
  | none =>
    let newest := (w.dbRows metadataId).foldl
      (fun (acc : NewestAcc) hash =>
        let bifPath := bifPathOf metadataPath hash
        match w.stat bifPath with
        | none => acc
        | some mtime =>
          let acc := if mtime > acc.mtime then { acc with path := bifPath, mtime := mtime } else acc
          { acc with found := acc.found + 1 })
      ⟨"", 0, 0⟩
    if newest.path.length > 0 then (true, c.addItem metadataId true newest.path, 1)
    else (false, c.addItem metadataId false "", 1)

/-- The external world of `FfmpegThumbnailManager.hasThumbnails`: the rows of
the file/duration query (ordered by descending duration, as the query
orders them) and `existsSync`. -/
structure FfmpegProbeWorld where
  dbRows : Nat → List (String × Int)
  existsSync : String → Bool

/-- The row scan of `FfmpegThumbnailManager.hasThumbnails`: the first row
whose file exists on disk. -/
def ffmpegFindFile (existsSync : String → Bool) : List (String × Int) → Option (String × Int)
  | [] => none
  | (f, d) :: rest => if existsSync f then some (f, d) else ffmpegFindFile existsSync rest

/-- `FfmpegThumbnailManager.hasThumbnails`: answer from the cache when the
item record exists; otherwise probe for the first associated file present on
disk, record the result — including a negative one — and answer. The third
component counts the probes this call performed. -/
def ffmpegHasThumbnails (w : FfmpegProbeWorld) (c : FfmpegCacheMap) (metadataId : Nat) :
    Bool × FfmpegCacheMap × Nat :=
  match c.getItem metadataId with
  | some cached => (cached.hasThumbs, c, 0)
  | none =>
    match ffmpegFindFile w.existsSync (w.dbRows metadataId) with
    | some (f, d) => (true, c.addItem metadataId true f d, 1)
    | none => (false, c.addItem metadataId false "" 0, 1)

/-! ## ThumbnailManager façade (static Create / the module-level Instance) -/

/-- A backend instance; `instanceId` models JavaScript object identity (each
`new` expression yields a distinct object). -/
structure ManagerInstance where
  instanceId : Nat
  isFfmpeg : Bool
deriving Repr, DecidableEq

/-- The module state around `ThumbnailManager.Create`: the `Instance`
variable, a supply of fresh object identities, and the number of warnings
logged so far. -/
structure FacadeState where
  inst : Option ManagerInstance
  nextId : Nat
  warnings : Nat
deriving Repr, DecidableEq

/-- `ThumbnailManager.Create`: warn when `Instance` is already set, then
construct a new backend (ffmpeg when precise thumbnails are configured, BIF
otherwise), store it in `Instance`, and return it. -/
def ThumbnailManager.Create (usePreciseThumbnails : Bool) (s : FacadeState) :
    ManagerInstance × FacadeState :=
  let warnings := if s.inst.isSome then s.warnings + 1 else s.warnings
  let newInst : ManagerInstance := ⟨s.nextId, usePreciseThumbnails⟩
  (newInst, ⟨some newInst, s.nextId + 1, warnings⟩)

/-! ## Theorems -/

/-- C1: for the index-backed backend, with an index file whose record table
is [(0,0x40),(2,0x1000),(4,0x2000)] and file length 0x3000 bytes,
`getThumbnail(id, 3500)` converts the timestamp to 3 whole seconds, discovers
interval 2 from the second record, selects frame index 1, and returns exactly
the bytes in the range [0x1000, 0x2000). -/
theorem c1_bif_scenarioA :
    Int.fdiv 3500 1000 = 3 ∧
    (∃ buf, readThumbnailData 0 scenarioAFile 3 = Except.ok ⟨buf, 1, 2⟩ ∧
      ByteBuf.eqv buf (scenarioAFile.extract 0x1000 0x2000)) ∧
    (∃ buf c', bifGetThumbnail scenarioAState 1 3500 scenarioAFile = Except.ok (buf, c') ∧
      ByteBuf.eqv buf (scenarioAFile.extract 0x1000 0x2000)) :=
  ⟨by decide, ⟨_, rfl, rfl, fun _ _ => rfl⟩, ⟨_, _, rfl, rfl, fun _ _ => rfl⟩⟩

/-- C2: for every index file whose first index record's timestamp is not 0,
the index-backed fetch that first parses that file (item record present,
thumbnails available, interval still 0) rejects with the corrupt-index
error and returns no thumbnail bytes. -/
theorem c2_corrupt_index (c : BifCacheMap) (metadataId : Nat) (timestamp : Int)
    (data : ByteBuf) (e : MediaItemCache BifData)
    (hitem : c.getItem metadataId = some e) (hthumbs : e.hasThumbs = true)
    (hinterval : e.extra.interval = 0) (hfirst : getTimestampAt data 0 ≠ 0) :
    bifGetThumbnailCore c metadataId timestamp data =
      Except.error unexpectedContentsError := by
  unfold bifGetThumbnailCore bifReadThumbnail readThumbnailData
  rw [hitem]
  simp [hthumbs, hinterval, hfirst]

/-- Concrete instance of `c2_corrupt_index`: a file whose first record's
timestamp is 5 is rejected. -/
theorem c2_corrupt_index_witness :
    bifGetThumbnailCore scenarioAState 1 7 (mkBifFile [(5, 0x40), (7, 0x48)] 0x50) =
      Except.error unexpectedContentsError :=
  c2_corrupt_index scenarioAState 1 7 (mkBifFile [(5, 0x40), (7, 0x48)] 0x50)
    ⟨true, fun _ => none, ⟨"index-sd.bif", 0⟩⟩ rfl rfl rfl (by decide)

/-- C10 (implicit): calling the Aging Cache's `add` when no item-level entry
exists for the metadata id is a silent no-op: the entire cache state (items,
buffers, tick counter) is unchanged. -/
theorem c10_add_without_item {α : Type} (c : CacheMap α) (metadataId : Nat)
    (timestamp : Int) (buffer : ByteBuf) (h : c.cacheMap metadataId = none) :
    c.add metadataId timestamp buffer = c := by
  unfold CacheMap.add
  rw [h]

/-- Concrete instance of `c10_add_without_item` on an empty cache. -/
theorem c10_add_without_item_witness :
    (⟨200, 3, fun _ => none⟩ : CacheMap Unit).add 7 5 ⟨2, fun _ => 1⟩ =
      (⟨200, 3, fun _ => none⟩ : CacheMap Unit) :=
  c10_add_without_item ⟨200, 3, fun _ => none⟩ 7 5 ⟨2, fun _ => 1⟩ rfl

/-- C8, counterexample: after a second `Create` call (no intervening close),
the active manager is NOT the instance produced by the first call — the code
logs the warning but still constructs and installs a fresh backend. -/
theorem c8_counterexample :
    ((ThumbnailManager.Create false
        (ThumbnailManager.Create false ⟨none, 0, 0⟩).2).2.inst ≠
      some (ThumbnailManager.Create false ⟨none, 0, 0⟩).1) ∧
    (ThumbnailManager.Create false
        (ThumbnailManager.Create false ⟨none, 0, 0⟩).2).2.warnings = 1 := by
  decide

/-- C8, amended: calling `Create` a second time logs a warning and replaces
the active manager with a newly constructed backend instance: afterwards the
active instance is the one produced by the second call, which is distinct
from the first call's instance. -/
theorem c8_amended (b1 b2 : Bool) (s0 : FacadeState) (h : s0.inst = none) :
    (ThumbnailManager.Create b2 (ThumbnailManager.Create b1 s0).2).2.warnings =
      s0.warnings + 1 ∧
    (ThumbnailManager.Create b2 (ThumbnailManager.Create b1 s0).2).2.inst =
      some (ThumbnailManager.Create b2 (ThumbnailManager.Create b1 s0).2).1 ∧
    (ThumbnailManager.Create b2 (ThumbnailManager.Create b1 s0).2).1 ≠
      (ThumbnailManager.Create b1 s0).1 := by
  refine ⟨?_, rfl, ?_⟩
  · simp [ThumbnailManager.Create, h]
  · intro hcontra
    have : s0.nextId + 1 = s0.nextId := congrArg ManagerInstance.instanceId hcontra
    omega

/-- Concrete instance of `c8_amended` from a fresh façade state. -/
theorem c8_amended_witness :
    (ThumbnailManager.Create true (ThumbnailManager.Create true ⟨none, 0, 0⟩).2).2.warnings =
      0 + 1 ∧
    (ThumbnailManager.Create true (ThumbnailManager.Create true ⟨none, 0, 0⟩).2).2.inst =
      some (ThumbnailManager.Create true (ThumbnailManager.Create true ⟨none, 0, 0⟩).2).1 ∧
    (ThumbnailManager.Create true (ThumbnailManager.Create true ⟨none, 0, 0⟩).2).1 ≠
      (ThumbnailManager.Create true ⟨none, 0, 0⟩).1 :=
  c8_amended true true ⟨none, 0, 0⟩ rfl

/-! ### C7 helper lemmas -/

/-- `getItem` right after `BifCacheMap.addItem` finds the stored record. -/
theorem bif_getItem_addItem (c : BifCacheMap) (id : Nat) (b : Bool) (p : String) :
    (c.addItem id b p).getItem id = some ⟨b, fun _ => none, ⟨p, 0⟩⟩ := by
  simp [BifCacheMap.addItem, CacheMap._addItem, CacheMap.getItem]

/-- A `bifHasThumbnails` call that hits the item cache answers from it and
performs no probe. -/
theorem bifHasThumbnails_cached (w : BifWorld) (mp : String) (c : BifCacheMap) (id : Nat)
    (e : MediaItemCache BifData) (h : c.getItem id = some e) :
    bifHasThumbnails w mp c id = (e.hasThumbs, c, 0) := by
  unfold bifHasThumbnails
  rw [h]

/-- After any `bifHasThumbnails` call, the item record exists and stores the
boolean the call returned. -/
theorem bifHasThumbnails_caches (w : BifWorld) (mp : String) (c : BifCacheMap) (id : Nat) :
    ∃ e, ((bifHasThumbnails w mp c id).2.1).getItem id = some e ∧
      e.hasThumbs = (bifHasThumbnails w mp c id).1 := by
  unfold bifHasThumbnails
  cases h : c.getItem id with
  | some cached => exact ⟨cached, by simp [h], by simp [h]⟩
  | none =>
    simp only [h]
    split
    · exact ⟨_, bif_getItem_addItem c id true _, rfl⟩
    · exact ⟨_, bif_getItem_addItem c id false _, rfl⟩

/-- A single `bifHasThumbnails` call performs at most one probe. -/
theorem bifHasThumbnails_probes_le_one (w : BifWorld) (mp : String) (c : BifCacheMap)
    (id : Nat) : (bifHasThumbnails w mp c id).2.2 ≤ 1 := by
  unfold bifHasThumbnails
  cases h : c.getItem id
  · simp only [h]
    split <;> simp
  · simp [h]

/-- `getItem` right after `FfmpegCacheMap.addItem` finds the stored record. -/
theorem ffmpeg_getItem_addItem (c : FfmpegCacheMap) (id : Nat) (b : Bool)
    (p : String) (d : Int) :
    (c.addItem id b p d).getItem id = some ⟨b, fun _ => none, ⟨p, d⟩⟩ := by
  simp [FfmpegCacheMap.addItem, CacheMap._addItem, CacheMap.getItem]

/-- An `ffmpegHasThumbnails` call that hits the item cache answers from it
and performs no probe. -/
theorem ffmpegHasThumbnails_cached (w : FfmpegProbeWorld) (c : FfmpegCacheMap) (id : Nat)
    (e : MediaItemCache FfmpegData) (h : c.getItem id = some e) :
    ffmpegHasThumbnails w c id = (e.hasThumbs, c, 0) := by
  unfold ffmpegHasThumbnails
  rw [h]

/-- After any `ffmpegHasThumbnails` call, the item record exists and stores
the boolean the call returned. -/
theorem ffmpegHasThumbnails_caches (w : FfmpegProbeWorld) (c : FfmpegCacheMap) (id : Nat) :
    ∃ e, ((ffmpegHasThumbnails w c id).2.1).getItem id = some e ∧
      e.hasThumbs = (ffmpegHasThumbnails w c id).1 := by
  unfold ffmpegHasThumbnails
  cases h : c.getItem id with
  | some cached => exact ⟨cached, by simp [h], by simp [h]⟩
  | none =>
    simp only [h]
    cases hf : ffmpegFindFile w.existsSync (w.dbRows id) with
    | some fd => exact ⟨_, ffmpeg_getItem_addItem c id true fd.1 fd.2, rfl⟩
    | none => exact ⟨_, ffmpeg_getItem_addItem c id false "" 0, rfl⟩

/-- A single `ffmpegHasThumbnails` call performs at most one probe. -/
theorem ffmpegHasThumbnails_probes_le_one (w : FfmpegProbeWorld) (c : FfmpegCacheMap)
    (id : Nat) : (ffmpegHasThumbnails w c id).2.2 ≤ 1 := by
  unfold ffmpegHasThumbnails
  cases h : c.getItem id
  · simp only [h]
    cases ffmpegFindFile w.existsSync (w.dbRows id) <;> simp
  · simp [h]

/-- C7: for both backends, calling `hasThumbnails(id)` twice in succession
with no backing file or database changes returns the same boolean both times
and performs at most one underlying probe: the per-item result (including a
negative one) is cached on first computation and the second call is answered
from that cache entry with zero probes. -/
theorem c7_hasThumbnails_idempotent :
    (∀ (w : BifWorld) (mp : String) (c : BifCacheMap) (id : Nat),
      (bifHasThumbnails w mp ((bifHasThumbnails w mp c id).2.1) id).1 =
        (bifHasThumbnails w mp c id).1 ∧
      (bifHasThumbnails w mp ((bifHasThumbnails w mp c id).2.1) id).2.2 = 0 ∧
      (bifHasThumbnails w mp c id).2.2 ≤ 1) ∧
    (∀ (w : FfmpegProbeWorld) (c : FfmpegCacheMap) (id : Nat),
      (ffmpegHasThumbnails w ((ffmpegHasThumbnails w c id).2.1) id).1 =
        (ffmpegHasThumbnails w c id).1 ∧
      (ffmpegHasThumbnails w ((ffmpegHasThumbnails w c id).2.1) id).2.2 = 0 ∧
      (ffmpegHasThumbnails w c id).2.2 ≤ 1) := by
  constructor
  · intro w mp c id
    obtain ⟨e, he, hb⟩ := bifHasThumbnails_caches w mp c id
    rw [bifHasThumbnails_cached w mp _ id e he]
    exact ⟨hb, rfl, bifHasThumbnails_probes_le_one w mp c id⟩
  · intro w c id
    obtain ⟨e, he, hb⟩ := ffmpegHasThumbnails_caches w c id
    rw [ffmpegHasThumbnails_cached w _ id e he]
    exact ⟨hb, rfl, ffmpegHasThumbnails_probes_le_one w c id⟩

/-! ### Concrete ffmpeg scenarios for C5/C6 -/

/-- A cached item record: thumbnails available, 60-second media file. -/
def ffmpegDemoEntry : MediaItemCache FfmpegData :=
  ⟨true, fun _ => none, ⟨"/media/ep1.mkv", 60000⟩⟩

/-- A cache holding only episode 1's item record, with no thumbnails yet. -/
def ffmpegDemoCache : FfmpegCacheMap :=
  ⟨200, 0, fun id => if id = 1 then some ffmpegDemoEntry else none⟩

/-- Empty disk cache; the subprocess succeeds, producing bytes derived from
the seek offset. -/
def ffmpegDemoWorldOk : FfmpegWorld :=
  ⟨fun _ _ => none, fun _ t => Except.ok ⟨4, fun _ => t.toNat % 256⟩⟩

/-- Empty disk cache; the subprocess fails (timeout / non-zero exit). -/
def ffmpegDemoWorldFail : FfmpegWorld :=
  ⟨fun _ _ => none, fun _ _ => Except.error "ffmpeg timed out"⟩

/-- C5: for the on-demand backend with a cached media duration of 60000 ms,
a fetch for timestamp 60500 ms uses the effective timestamp 59000 ms
(rounded down to the 100 ms bucket and clamped to at most
duration - 1000 ms) as both the cache key and the subprocess seek offset. -/
theorem c5_ffmpeg_effective_timestamp :
    ffmpegEffectiveTimestamp 60000 60500 = 59000 ∧
    (∀ (w : FfmpegWorld) (c : FfmpegCacheMap) (metadataId : Nat)
        (e : MediaItemCache FfmpegData),
      c.getItem metadataId = some e → e.hasThumbs = true → e.extra.duration = 60000 →
      ffmpegGetThumbnailCore w c metadataId 60500 =
        (match c.tryGet metadataId 59000 with
          | (some cachedThumb, c1) => (Except.ok cachedThumb, c1, w)
          | (none, c1) => fileCacheOrGenerate w c1 metadataId 59000)) ∧
    (∀ (w : FfmpegWorld) (c : FfmpegCacheMap) (metadataId : Nat)
        (e : MediaItemCache FfmpegData),
      c.getItem metadataId = some e → e.hasThumbs = true → e.extra.duration = 60000 →
      c.tryGet metadataId 59000 = (none, c) →
      w.diskCache metadataId 59000 = none →
      (ffmpegGetThumbnailCore w c metadataId 60500).1 =
        w.subprocess e.extra.filePath 59000) := by
  have heff : ffmpegEffectiveTimestamp 60000 60500 = 59000 := by decide
  have hmain : ∀ (w : FfmpegWorld) (c : FfmpegCacheMap) (metadataId : Nat)
      (e : MediaItemCache FfmpegData),
      c.getItem metadataId = some e → e.hasThumbs = true → e.extra.duration = 60000 →
      ffmpegGetThumbnailCore w c metadataId 60500 =
        (match c.tryGet metadataId 59000 with
          | (some cachedThumb, c1) => (Except.ok cachedThumb, c1, w)
          | (none, c1) => fileCacheOrGenerate w c1 metadataId 59000) := by
    intro w c metadataId e hitem hthumbs hdur
    simp only [ffmpegGetThumbnailCore, hitem, hthumbs, hdur, heff]
    simp
  refine ⟨heff, hmain, ?_⟩
  intro w c metadataId e hitem hthumbs hdur htry hdisk
  rw [hmain w c metadataId e hitem hthumbs hdur, htry]
  simp only [fileCacheOrGenerate, hdisk, hitem]
  cases hsub : w.subprocess e.extra.filePath 59000 <;> simp

/-- Concrete instance of `c5_ffmpeg_effective_timestamp`: the fetch of
timestamp 60500 consults the cache at key 59000 and returns exactly what the
subprocess produces at seek offset 59000. -/
theorem c5_ffmpeg_effective_timestamp_witness :
    (ffmpegGetThumbnailCore ffmpegDemoWorldOk ffmpegDemoCache 1 60500 =
      (match ffmpegDemoCache.tryGet 1 59000 with
        | (some cachedThumb, c1) => (Except.ok cachedThumb, c1, ffmpegDemoWorldOk)
        | (none, c1) => fileCacheOrGenerate ffmpegDemoWorldOk c1 1 59000)) ∧
    (ffmpegGetThumbnailCore ffmpegDemoWorldOk ffmpegDemoCache 1 60500).1 =
      ffmpegDemoWorldOk.subprocess "/media/ep1.mkv" 59000 :=
  ⟨c5_ffmpeg_effective_timestamp.2.1 ffmpegDemoWorldOk ffmpegDemoCache 1 ffmpegDemoEntry
      rfl rfl rfl,
    c5_ffmpeg_effective_timestamp.2.2 ffmpegDemoWorldOk ffmpegDemoCache 1 ffmpegDemoEntry
      rfl rfl rfl rfl rfl⟩

/-- C6: for the on-demand backend, a frame-extraction subprocess failure
(timeout or non-zero exit) makes the fetch reject with that failure, and
neither the in-memory Aging Cache nor the on-disk cache gains an entry for
the requested (item, timestamp): both are returned unchanged. -/
theorem c6_subprocess_failure (w : FfmpegWorld) (c : FfmpegCacheMap) (metadataId : Nat)
    (timestamp0 : Int) (e : MediaItemCache FfmpegData) (msg : String)
    (hitem : c.getItem metadataId = some e) (hthumbs : e.hasThumbs = true)
    (htry : c.tryGet metadataId (ffmpegEffectiveTimestamp e.extra.duration timestamp0) =
      (none, c))
    (hdisk : w.diskCache metadataId (ffmpegEffectiveTimestamp e.extra.duration timestamp0) =
      none)
    (hsub : w.subprocess e.extra.filePath
        (ffmpegEffectiveTimestamp e.extra.duration timestamp0) = Except.error msg) :
    ffmpegGetThumbnailCore w c metadataId timestamp0 = (Except.error msg, c, w) := by
  simp only [ffmpegGetThumbnailCore, hitem, hthumbs, htry]
  simp only [fileCacheOrGenerate, hdisk, hitem, hsub]
  simp

/-- Concrete instance of `c6_subprocess_failure`. -/
theorem c6_subprocess_failure_witness :
    ffmpegGetThumbnailCore ffmpegDemoWorldFail ffmpegDemoCache 1 60500 =
      (Except.error "ffmpeg timed out", ffmpegDemoCache, ffmpegDemoWorldFail) :=
  c6_subprocess_failure ffmpegDemoWorldFail ffmpegDemoCache 1 60500 ffmpegDemoEntry
    "ffmpeg timed out" rfl rfl rfl rfl rfl

/-- A small BIF file with two records, used by the C3 witness. -/
def c3File : ByteBuf := mkBifFile [(0, 0x40), (2, 0x48)] 0x50

/-- C3: for every parsed index file (interval known and positive) with frame
count N ≥ 1: a request whose computed index `floor(timestampSeconds / interval)`
is at least N returns the same byte range (indeed the same full result) as a
request whose computed index is the last valid index N - 1, and a request
whose computed index is negative returns the same byte range as a request
whose computed index is 0. -/
theorem c3_index_clamping (interval : Int) (data : ByteBuf)
    (hpos : 0 < interval) (hN : 1 ≤ readInt32LE data 0xC) :
    (∀ ts1 ts2 : Int,
      readInt32LE data 0xC ≤ ts1.fdiv interval →
      ts2.fdiv interval = readInt32LE data 0xC - 1 →
      readThumbnailData interval data ts1 = readThumbnailData interval data ts2) ∧
    (∀ ts1 ts2 : Int,
      ts1.fdiv interval < 0 →
      ts2.fdiv interval = 0 →
      readThumbnailData interval data ts1 = readThumbnailData interval data ts2) := by
  have hintz : interval ≠ 0 := by omega
  have hne : ¬(interval = 0 ∧ getTimestampAt data 0 ≠ 0) := fun h => hintz h.1
  constructor
  · intro ts1 ts2 h1 h2
    have hidx : (if ts1.fdiv interval > readInt32LE data 0xC - 1 then readInt32LE data 0xC - 1
        else if ts1.fdiv interval < 0 then 0 else ts1.fdiv interval) =
        (if ts2.fdiv interval > readInt32LE data 0xC - 1 then readInt32LE data 0xC - 1
        else if ts2.fdiv interval < 0 then 0 else ts2.fdiv interval) := by
      rw [if_pos (by omega), if_neg (by omega), if_neg (by omega)]
      omega
    simp only [readThumbnailData, if_neg hne, if_neg hintz, hidx]
  · intro ts1 ts2 h1 h2
    have hidx : (if ts1.fdiv interval > readInt32LE data 0xC - 1 then readInt32LE data 0xC - 1
        else if ts1.fdiv interval < 0 then 0 else ts1.fdiv interval) =
        (if ts2.fdiv interval > readInt32LE data 0xC - 1 then readInt32LE data 0xC - 1
        else if ts2.fdiv interval < 0 then 0 else ts2.fdiv interval) := by
      rw [if_neg (by omega), if_pos (by omega), if_neg (by omega), if_neg (by omega)]
      omega
    simp only [readThumbnailData, if_neg hne, if_neg hintz, hidx]

/-- Concrete instance of `c3_index_clamping` on a 2-frame file with interval
2: timestamp 10s (index 5) reads like timestamp 2s (index 1), and timestamp
-1s (index -1) reads like timestamp 1s (index 0). -/
theorem c3_index_clamping_witness :
    readThumbnailData 2 c3File 10 = readThumbnailData 2 c3File 2 ∧
    readThumbnailData 2 c3File (-1) = readThumbnailData 2 c3File 1 :=
  ⟨(c3_index_clamping 2 c3File (by decide) (by decide)).1 10 2 (by decide) (by decide),
   (c3_index_clamping 2 c3File (by decide) (by decide)).2 (-1) 1 (by decide) (by decide)⟩

/-- `#touch` never changes `#maxCache`. -/
theorem touch_maxCache {α : Type} (c : CacheMap α) : c.touch.maxCache = c.maxCache := by
  unfold CacheMap.touch
  split <;> rfl

/-- The tick after a `#touch`: incremented, wrapping to 0 at `#maxTick`. -/
theorem touch_tick {α : Type} (c : CacheMap α) :
    c.touch.tick = if c.tick + 1 ≠ maxTick then c.tick + 1 else 0 := by
  unfold CacheMap.touch
  split <;> simp_all

/-- Before the threshold, `#touch` leaves the item map untouched. -/
theorem touch_cacheMap_nosweep {α : Type} (c : CacheMap α) (h : c.tick + 1 ≠ maxTick) :
    c.touch.cacheMap = c.cacheMap := by
  unfold CacheMap.touch
  rw [if_pos h]

/-- At the threshold, `#touch` sweeps every item. -/
theorem touch_cacheMap_sweep {α : Type} (c : CacheMap α) (h : ¬c.tick + 1 ≠ maxTick)
    (id : Nat) : c.touch.cacheMap id = (c.cacheMap id).map CacheMap.sweepEntry := by
  unfold CacheMap.touch
  rw [if_neg h]

/-- How `#touch` transforms the rank of any sub-entry: unchanged before the
threshold; at the threshold decremented by `#maxTick`, deleted when the
decremented rank is not positive. -/
theorem rankOf_touch {α : Type} (c : CacheMap α) (id : Nat) (ts : Int) :
    rankOf c.touch id ts =
      if c.tick + 1 ≠ maxTick then rankOf c id ts
      else (rankOf c id ts).bind
        (fun r => if r - (maxTick : Int) ≤ 0 then none else some (r - (maxTick : Int))) := by
  by_cases h : c.tick + 1 ≠ maxTick
  · rw [if_pos h]
    unfold rankOf
    rw [touch_cacheMap_nosweep c h]
  · rw [if_neg h]
    unfold rankOf
    rw [touch_cacheMap_sweep c h id]
    cases hc : c.cacheMap id with
    | none => rfl
    | some e =>
      show Option.map CachedThumbnail.rank ((e.cachedThumbnails ts).bind CacheMap.sweepThumb) =
        (Option.map CachedThumbnail.rank (e.cachedThumbnails ts)).bind
          (fun r => if r - (maxTick : Int) ≤ 0 then none else some (r - (maxTick : Int)))
      cases ht : e.cachedThumbnails ts with
      | none => rfl
      | some t =>
        show Option.map CachedThumbnail.rank (CacheMap.sweepThumb t) =
          if t.rank - (maxTick : Int) ≤ 0 then none else some (t.rank - (maxTick : Int))
        unfold CacheMap.sweepThumb
        split <;> rfl

/-- Item records survive a `#touch` (possibly swept). -/
theorem touch_cacheMap_some {α : Type} (c : CacheMap α) (id : Nat) (e : MediaItemCache α)
    (h : c.cacheMap id = some e) :
    c.touch.cacheMap id = some e ∨ c.touch.cacheMap id = some (CacheMap.sweepEntry e) := by
  by_cases hs : c.tick + 1 ≠ maxTick
  · rw [touch_cacheMap_nosweep c hs]
    exact Or.inl h
  · rw [touch_cacheMap_sweep c hs id]
    right
    simp [h]

/-- Storing a thumbnail does not change the tick. -/
theorem storeThumb_tick {α : Type} (c1 : CacheMap α) (id : Nat) (ts : Int) (buf : ByteBuf) :
    (CacheMap.storeThumb c1 id ts buf).tick = c1.tick := rfl

/-- Refreshing a rank does not change the tick. -/
theorem refreshRank_tick {α : Type} (c : CacheMap α) (id : Nat) (ts : Int)
    (e : MediaItemCache α) (t : CachedThumbnail) :
    (CacheMap.refreshRank c id ts e t).tick = c.tick := rfl

/-- When the item record exists, `add` is `#touch` followed by the store. -/
theorem add_eq_storeThumb {α : Type} (c : CacheMap α) (id : Nat) (ts : Int) (buf : ByteBuf)
    (v : MediaItemCache α) (hv : c.cacheMap id = some v) :
    c.add id ts buf = CacheMap.storeThumb c.touch id ts buf := by
  unfold CacheMap.add
  rw [hv]

/-- The stored sub-entry's rank is `#maxCache + 1`. -/
theorem rankOf_storeThumb_target {α : Type} (c1 : CacheMap α) (id : Nat) (ts : Int)
    (buf : ByteBuf) (e1 : MediaItemCache α) (h : c1.cacheMap id = some e1) :
    rankOf (CacheMap.storeThumb c1 id ts buf) id ts = some ((c1.maxCache : Int) + 1) := by
  unfold rankOf CacheMap.storeThumb
  simp [h]

/-- Storing a thumbnail leaves every other sub-entry's rank unchanged. -/
theorem rankOf_storeThumb_other {α : Type} (c1 : CacheMap α) (id : Nat) (ts : Int)
    (buf : ByteBuf) (idX : Nat) (tsX : Int) (hne : ¬(id = idX ∧ ts = tsX)) :
    rankOf (CacheMap.storeThumb c1 id ts buf) idX tsX = rankOf c1 idX tsX := by
  unfold rankOf CacheMap.storeThumb
  by_cases hid : idX = id
  · subst hid
    have hts : ¬tsX = ts := fun hcontra => hne ⟨rfl, hcontra.symm⟩
    simp only [if_pos rfl]
    cases hc : c1.cacheMap idX with
    | none => rfl
    | some e => simp [hts]
  · simp only [if_neg hid]

/-- The refreshed sub-entry's rank is `#maxCache + 1`. -/
theorem rankOf_refreshRank_target {α : Type} (c : CacheMap α) (id : Nat) (ts : Int)
    (e : MediaItemCache α) (t : CachedThumbnail) :
    rankOf (CacheMap.refreshRank c id ts e t) id ts = some ((c.maxCache : Int) + 1) := by
  unfold rankOf CacheMap.refreshRank
  simp

/-- Refreshing a rank leaves every other sub-entry's rank unchanged. -/
theorem rankOf_refreshRank_other {α : Type} (c : CacheMap α) (id : Nat) (ts : Int)
    (e : MediaItemCache α) (t : CachedThumbnail) (idX : Nat) (tsX : Int)
    (he : c.cacheMap id = some e) (hne : ¬(id = idX ∧ ts = tsX)) :
    rankOf (CacheMap.refreshRank c id ts e t) idX tsX = rankOf c idX tsX := by
  unfold rankOf CacheMap.refreshRank
  by_cases hid : idX = id
  · subst hid
    have hts : ¬tsX = ts := fun hcontra => hne ⟨rfl, hcontra.symm⟩
    simp [he, hts]
  · simp only [if_neg hid]

/-- A `tryGet` whose result is a hit: the item and sub-entry exist, the data
is returned, and the state is the refresh followed by a `#touch`. -/
theorem tryGet_hit {α : Type} (c : CacheMap α) (id : Nat) (ts : Int)
    (h : ((c.tryGet id ts).1).isSome = true) :
    ∃ e t, c.cacheMap id = some e ∧ e.cachedThumbnails ts = some t ∧
      c.tryGet id ts = (some t.data, (CacheMap.refreshRank c id ts e t).touch) := by
  unfold CacheMap.tryGet at h ⊢
  cases hc : c.cacheMap id with
  | none => rw [hc] at h; simp at h
  | some e =>
    cases ht : e.cachedThumbnails ts with
    | none => rw [hc] at h; simp only [ht] at h; simp at h
    | some t =>
      refine ⟨e, t, rfl, ht, ?_⟩
      show (match e.cachedThumbnails ts with
        | none => (none, c)
        | some t => (some t.data, (CacheMap.refreshRank c id ts e t).touch)) =
          (some t.data, (CacheMap.refreshRank c id ts e t).touch)
      rw [ht]

/-- One touching cache operation that does not address `(idX, tsX)`: the
tick advances (wrapping at the threshold) and X's rank is unchanged, or
decayed by the sweep exactly when the threshold was reached. -/
theorem step_rank {α : Type} (c : CacheMap α) (op : CacheOp) (idX : Nat) (tsX : Int)
    (htouch : opTouches c op = true) (htarget : opTargets op idX tsX = false) :
    rankOf (applyOp c op) idX tsX =
      (if c.tick + 1 ≠ maxTick then rankOf c idX tsX
       else (rankOf c idX tsX).bind
         (fun r => if r - (maxTick : Int) ≤ 0 then none else some (r - (maxTick : Int)))) ∧
    (applyOp c op).tick = (if c.tick + 1 ≠ maxTick then c.tick + 1 else 0) := by
  cases op with
  | addOp id ts buf =>
    obtain ⟨v, hv⟩ := Option.isSome_iff_exists.mp htouch
    have hne : ¬(id = idX ∧ ts = tsX) := by
      simpa [opTargets] using htarget
    show rankOf (c.add id ts buf) idX tsX = _ ∧ (c.add id ts buf).tick = _
    rw [add_eq_storeThumb c id ts buf v hv]
    exact ⟨by rw [rankOf_storeThumb_other c.touch id ts buf idX tsX hne, rankOf_touch],
      by rw [storeThumb_tick, touch_tick]⟩
  | tryGetOp id ts =>
    obtain ⟨e, t, he, ht, heq⟩ := tryGet_hit c id ts htouch
    have hne : ¬(id = idX ∧ ts = tsX) := by
      simpa [opTargets] using htarget
    show rankOf (c.tryGet id ts).2 idX tsX = _ ∧ ((c.tryGet id ts).2).tick = _
    rw [heq]
    constructor
    · rw [rankOf_touch, rankOf_refreshRank_other c id ts e t idX tsX he hne, refreshRank_tick]
    · rw [touch_tick, refreshRank_tick]

/-- Running exactly enough touching operations to reach the sweep threshold,
none of them addressing `(idX, tsX)`: X's rank drops by exactly one decay
unit of `#maxTick` (X surviving because its rank exceeds `#maxTick`), and
the tick counter ends at 0. -/
theorem decay_run {α : Type} (idX : Nat) (tsX : Int) :
    ∀ (ops : List CacheOp) (c : CacheMap α) (r : Int),
      ops ≠ [] →
      allTouchB c ops = true →
      (∀ op ∈ ops, opTargets op idX tsX = false) →
      rankOf c idX tsX = some r →
      (maxTick : Int) < r →
      c.tick + ops.length = maxTick →
      rankOf (applyOps c ops) idX tsX = some (r - (maxTick : Int)) ∧
        (applyOps c ops).tick = 0 := by
  intro ops
  induction ops with
  | nil => intro c r hne; exact absurd rfl hne
  | cons op rest ih =>
    intro c r _ hall htargets hrank hr hlen
    have hop : opTouches c op = true := by
      have := hall
      simp [allTouchB, Bool.and_eq_true] at this
      exact this.1
    have hrest : allTouchB (applyOp c op) rest = true := by
      have := hall
      simp [allTouchB, Bool.and_eq_true] at this
      exact this.2
    have htop : opTargets op idX tsX = false := htargets op (List.mem_cons_self op rest)
    have hstep := step_rank c op idX tsX hop htop
    have happly : applyOps c (op :: rest) = applyOps (applyOp c op) rest := rfl
    cases rest with
    | nil =>
      have hsweep : ¬(c.tick + 1 ≠ maxTick) := by
        simp only [List.length_cons, List.length_nil] at hlen
        omega
      rw [happly]
      show rankOf (applyOp c op) idX tsX = some (r - (maxTick : Int)) ∧
        (applyOp c op).tick = 0
      rw [hstep.1, hstep.2, if_neg hsweep, if_neg hsweep, hrank]
      constructor
      · show (if r - (maxTick : Int) ≤ 0 then none else some (r - (maxTick : Int))) =
          some (r - (maxTick : Int))
        rw [if_neg (by omega)]
      · rfl
    | cons op2 rest2 =>
      have hnosweep : c.tick + 1 ≠ maxTick := by
        simp only [List.length_cons] at hlen
        omega
      rw [happly]
      refine ih (applyOp c op) r (by simp) hrest
        (fun o ho => htargets o (List.mem_cons_of_mem op ho)) ?_ hr ?_
      · rw [hstep.1, if_pos hnosweep, hrank]
      · rw [hstep.2, if_pos hnosweep]
        simp only [List.length_cons] at hlen ⊢
        omega

/-- C4: in the Aging Cache, every `add` (put) and every successful `tryGet`
sets the touched sub-entry's rank to maxCache + 1 and advances the tick
counter; when the counter reaches 20 (`#maxTick`) it resets to 0 and every
sub-entry's rank across every item decreases by 20, sub-entries whose
resulting rank is ≤ 0 being deleted — hence after exactly 20 touches none of
which access sub-entry X (X surviving because its rank exceeds 20), X's rank
has decreased by exactly one decay unit of 20. (The rank-refresh clause of a
successful `tryGet` is stated for non-sweep ticks; on the sweeping 20th tick
the refreshed rank is itself decayed by the sweep, per the sweep clause.) -/
theorem c4_aging_cache_mechanism (α : Type) :
    (∀ (c : CacheMap α) (id : Nat) (ts : Int) (buf : ByteBuf),
      (c.cacheMap id).isSome = true →
      rankOf (c.add id ts buf) id ts = some ((c.maxCache : Int) + 1) ∧
      (c.add id ts buf).tick = (if c.tick + 1 ≠ maxTick then c.tick + 1 else 0)) ∧
    (∀ (c : CacheMap α) (id : Nat) (ts : Int),
      ((c.tryGet id ts).1).isSome = true → c.tick + 1 ≠ maxTick →
      rankOf ((c.tryGet id ts).2) id ts = some ((c.maxCache : Int) + 1) ∧
      ((c.tryGet id ts).2).tick = c.tick + 1) ∧
    (∀ (c : CacheMap α), c.tick + 1 = maxTick →
      c.touch.tick = 0 ∧
      (∀ (id : Nat) (ts : Int),
        rankOf c.touch id ts = (rankOf c id ts).bind
          (fun r => if r - (maxTick : Int) ≤ 0 then none else some (r - (maxTick : Int))))) ∧
    (∀ (c : CacheMap α) (idX : Nat) (tsX : Int) (r : Int) (ops : List CacheOp),
      c.tick = 0 → ops.length = maxTick → allTouchB c ops = true →
      (∀ op ∈ ops, opTargets op idX tsX = false) →
      rankOf c idX tsX = some r → (maxTick : Int) < r →
      rankOf (applyOps c ops) idX tsX = some (r - (maxTick : Int)) ∧
        (applyOps c ops).tick = 0) := by
  refine ⟨?_, ?_, ?_, ?_⟩
  · intro c id ts buf h
    obtain ⟨v, hv⟩ := Option.isSome_iff_exists.mp h
    rw [add_eq_storeThumb c id ts buf v hv]
    constructor
    · rcases touch_cacheMap_some c id v hv with h1 | h1 <;>
        rw [rankOf_storeThumb_target c.touch id ts buf _ h1, touch_maxCache]
    · rw [storeThumb_tick, touch_tick]
  · intro c id ts h hns
    obtain ⟨e, t, he, ht, heq⟩ := tryGet_hit c id ts h
    rw [heq]
    constructor
    · rw [rankOf_touch, refreshRank_tick, if_pos hns, rankOf_refreshRank_target]
    · rw [touch_tick, refreshRank_tick, if_pos hns]
  · intro c hsw
    constructor
    · rw [touch_tick, if_neg (by omega)]
    · intro id ts
      rw [rankOf_touch, if_neg (by omega)]
  · intro c idX tsX r ops htick hlen hall htargets hrank hr
    refine decay_run idX tsX ops c r ?_ hall htargets hrank hr ?_
    · intro hnil
      rw [hnil] at hlen
      simp [maxTick] at hlen
    · omega

/-- A small thumbnail buffer used by the concrete cache scenarios. -/
def c4Buf : ByteBuf := ⟨1, fun _ => 7⟩

/-- Item 1 with a sub-entry at bucket 5, rank 42. -/
def c4Entry1 : MediaItemCache Unit :=
  ⟨true, fun ts => if ts = 5 then some ⟨c4Buf, 42⟩ else none, ()⟩

/-- Item 2 with a sub-entry at bucket 9, rank 500. -/
def c4Entry2 : MediaItemCache Unit :=
  ⟨true, fun ts => if ts = 9 then some ⟨c4Buf, 500⟩ else none, ()⟩

/-- A cache holding items 1 and 2, tick 0. -/
def c4Cache : CacheMap Unit :=
  ⟨200, 0, fun id => if id = 1 then some c4Entry1 else if id = 2 then some c4Entry2 else none⟩

/-- Twenty touching operations, none of which accesses `(1, 5)`. -/
def c4Ops : List CacheOp := List.replicate 20 (CacheOp.tryGetOp 2 9)

/-- A cache one tick before the sweep threshold. -/
def c4SweepState : CacheMap Unit :=
  ⟨200, 19, fun id => if id = 1 then some c4Entry1 else none⟩

/-- Concrete instance of `c4_aging_cache_mechanism`: an `add` and a `tryGet`
hit set rank 201; a sweep resets the tick and decrements rank 42 to 22; and
20 touches that never access `(1, 5)` take its rank from 42 to 22 exactly
once. -/
theorem c4_aging_cache_mechanism_witness :
    rankOf (c4Cache.add 1 6 c4Buf) 1 6 = some 201 ∧
    rankOf ((c4Cache.tryGet 2 9).2) 2 9 = some 201 ∧
    c4SweepState.touch.tick = 0 ∧
    rankOf c4SweepState.touch 1 5 = some 22 ∧
    rankOf (applyOps c4Cache c4Ops) 1 5 = some 22 ∧
    (applyOps c4Cache c4Ops).tick = 0 := by
  have h := c4_aging_cache_mechanism Unit
  refine ⟨((h.1 c4Cache 1 6 c4Buf (by decide)).1 : _),
    ((h.2.1 c4Cache 2 9 (by decide) (by decide)).1 : _),
    (h.2.2.1 c4SweepState (by decide)).1,
    ?_,
    ((h.2.2.2 c4Cache 1 5 42 c4Ops rfl (by decide) (by decide) (by decide) (by decide)
      (by decide)).1 : _),
    (h.2.2.2 c4Cache 1 5 42 c4Ops rfl (by decide) (by decide) (by decide) (by decide)
      (by decide)).2⟩
  have h45 := (h.2.2.1 c4SweepState (by decide)).2 1 5
  rw [h45]
  decide

/-- State relation for C9: every item record of `c` is still present in `c'`
with its `hasThumbs` flag and backend locator (`extra`) intact. -/
def itemFieldsPreserved {α : Type} (c c' : CacheMap α) : Prop :=
  ∀ id e, c.cacheMap id = some e →
    ∃ e', c'.cacheMap id = some e' ∧ e'.hasThumbs = e.hasThumbs ∧ e'.extra = e.extra

/-- Preservation is reflexive. -/
theorem itemFieldsPreserved_refl {α : Type} (c : CacheMap α) : itemFieldsPreserved c c :=
  fun _ e h => ⟨e, h, rfl, rfl⟩

/-- Preservation composes. -/
theorem itemFieldsPreserved_trans {α : Type} {a b c : CacheMap α}
    (h1 : itemFieldsPreserved a b) (h2 : itemFieldsPreserved b c) :
    itemFieldsPreserved a c := by
  intro id e he
  obtain ⟨e1, hb, p1, q1⟩ := h1 id e he
  obtain ⟨e2, hc, p2, q2⟩ := h2 id e1 hb
  exact ⟨e2, hc, p2.trans p1, q2.trans q1⟩

/-- The sweep deletes only thumbnail sub-entries: `#touch` preserves every
item record's flag and locator. -/
theorem touch_itemFieldsPreserved {α : Type} (c : CacheMap α) :
    itemFieldsPreserved c c.touch := by
  intro id e h
  rcases touch_cacheMap_some c id e h with h1 | h1
  · exact ⟨e, h1, rfl, rfl⟩
  · exact ⟨_, h1, rfl, rfl⟩

/-- Storing a thumbnail preserves every item record's flag and locator. -/
theorem storeThumb_itemFieldsPreserved {α : Type} (c1 : CacheMap α) (id : Nat) (ts : Int)
    (buf : ByteBuf) : itemFieldsPreserved c1 (CacheMap.storeThumb c1 id ts buf) := by
  intro idX e h
  unfold CacheMap.storeThumb
  by_cases hid : idX = id
  · subst hid
    refine ⟨{ e with cachedThumbnails := fun ts1 =>
        if ts1 = ts then some ⟨buf, (c1.maxCache : Int) + 1⟩ else e.cachedThumbnails ts1 },
      ?_, rfl, rfl⟩
    simp [h]
  · exact ⟨e, by simp [hid, h], rfl, rfl⟩

/-- Refreshing a rank preserves every item record's flag and locator. -/
theorem refreshRank_itemFieldsPreserved {α : Type} (c : CacheMap α) (id : Nat) (ts : Int)
    (e0 : MediaItemCache α) (t : CachedThumbnail) (he : c.cacheMap id = some e0) :
    itemFieldsPreserved c (CacheMap.refreshRank c id ts e0 t) := by
  intro idX e h
  unfold CacheMap.refreshRank
  by_cases hid : idX = id
  · subst hid
    have hee : e0 = e := by
      rw [he] at h
      injection h
    cases hee
    refine ⟨{ e0 with cachedThumbnails := fun ts1 =>
        if ts1 = ts then some { t with rank := (c.maxCache : Int) + 1 }
        else e0.cachedThumbnails ts1 },
      ?_, rfl, rfl⟩
    simp
  · exact ⟨e, by simp [hid, h], rfl, rfl⟩

/-- A single cache operation preserves every item record's flag and
locator. -/
theorem applyOp_itemFieldsPreserved {α : Type} (c : CacheMap α) (op : CacheOp) :
    itemFieldsPreserved c (applyOp c op) := by
  cases op with
  | addOp id ts buf =>
    show itemFieldsPreserved c (c.add id ts buf)
    unfold CacheMap.add
    cases hv : c.cacheMap id with
    | none => exact itemFieldsPreserved_refl c
    | some v =>
      exact itemFieldsPreserved_trans (touch_itemFieldsPreserved c)
        (storeThumb_itemFieldsPreserved c.touch id ts buf)
  | tryGetOp id ts =>
    show itemFieldsPreserved c ((c.tryGet id ts).2)
    unfold CacheMap.tryGet
    cases hv : c.cacheMap id with
    | none => exact itemFieldsPreserved_refl c
    | some e =>
      show itemFieldsPreserved c
        ((match e.cachedThumbnails ts with
          | none => ((none : Option ByteBuf), c)
          | some t => (some t.data, (CacheMap.refreshRank c id ts e t).touch)).2)
      cases ht : e.cachedThumbnails ts with
      | none => exact itemFieldsPreserved_refl c
      | some t =>
        exact itemFieldsPreserved_trans (refreshRank_itemFieldsPreserved c id ts e t hv)
          (touch_itemFieldsPreserved _)

/-- Any sequence of cache operations preserves every item record's flag and
locator. -/
theorem applyOps_itemFieldsPreserved {α : Type} :
    ∀ (ops : List CacheOp) (c : CacheMap α), itemFieldsPreserved c (applyOps c ops) := by
  intro ops
  induction ops with
  | nil => exact fun c => itemFieldsPreserved_refl c
  | cons op rest ih =>
    intro c
    exact itemFieldsPreserved_trans (applyOp_itemFieldsPreserved c op) (ih (applyOp c op))

/-- C9: an item-level record, once created for a media id, is never removed
by `add` (put), `tryGet` or the eviction sweep — after any sequence of cache
operations (and after any sweep), `getItem`-style lookup still finds the
record with its `hasThumbs` flag and its locator (`extra`) intact. -/
theorem c9_item_entries_persist (α : Type) :
    (∀ (ops : List CacheOp) (c : CacheMap α) (id : Nat) (e : MediaItemCache α),
      c.cacheMap id = some e →
      ∃ e', (applyOps c ops).cacheMap id = some e' ∧
        e'.hasThumbs = e.hasThumbs ∧ e'.extra = e.extra) ∧
    (∀ (c : CacheMap α) (id : Nat) (e : MediaItemCache α),
      c.cacheMap id = some e →
      ∃ e', c.touch.cacheMap id = some e' ∧
        e'.hasThumbs = e.hasThumbs ∧ e'.extra = e.extra) :=
  ⟨fun ops c id e h => applyOps_itemFieldsPreserved ops c id e h,
   fun c id e h => touch_itemFieldsPreserved c id e h⟩

/-- A small thumbnail buffer for the C9 scenario. -/
def c9Buf : ByteBuf := ⟨1, fun _ => 9⟩

/-- A BIF item record with locator `/bif/path`, interval 2, one sub-entry. -/
def c9Entry : MediaItemCache BifData :=
  ⟨true, fun ts => if ts = 3 then some ⟨c9Buf, 100⟩ else none, ⟨"/bif/path", 2⟩⟩

/-- A cache holding only item 1. -/
def c9Cache : BifCacheMap :=
  ⟨200, 0, fun id => if id = 1 then some c9Entry else none⟩

/-- Twenty touching operations on item 1 (the 20th triggers a sweep). -/
def c9Ops : List CacheOp := List.replicate 20 (CacheOp.tryGetOp 1 3)

/-- Concrete instance of `c9_item_entries_persist`: after 20 operations
including a sweep, item 1 still has `hasThumbs = true` and its original
locator. -/
theorem c9_item_entries_persist_witness :
    ((applyOps c9Cache c9Ops).cacheMap 1).map MediaItemCache.hasThumbs = some true ∧
    ((applyOps c9Cache c9Ops).cacheMap 1).map MediaItemCache.extra =
      some (⟨"/bif/path", 2⟩ : BifData) := by
  obtain ⟨e', he, hh, hx⟩ := (c9_item_entries_persist BifData).1 c9Ops c9Cache 1 c9Entry rfl
  rw [he]
  simp only [Option.map]
  rw [hh, hx]
  exact ⟨rfl, rfl⟩
